import Mathlib

/-!
Shallow embedding of the read-through cache layer of the portfolio backend
(`src/backend/middleware/cache.js`) together with the write-route control flow
that triggers invalidation (`src/backend/routes/blog.js`, `routes/projects.js`,
the skills router bundled in `routes/blog.js`, and `routes/profile.js`).

Conventions of the embedding:

* JSON payloads passed to `res.json(data)` are modelled by `JsonValue`.
  `JSON.stringify` / `JSON.parse` are external Node built-ins; no repository
  code inspects the serialized text, so the serialized payload is modelled by
  the `JsonValue` itself together with an explicit `serializable` predicate
  (`JSON.stringify` throws a `TypeError` on payloads containing a `BigInt`,
  modelled by the constructor `jbig`; `JSON.parse` is exact inverse of
  `JSON.stringify` on its image).  Route handlers of this repository always
  pass object literals to `res.json`, so property access `data.success` on a
  non-object payload is modelled as an absent field.
* The Redis client (`src/backend/utils/redis.js`, reached only through
  `getRedisClient()`) is modelled as a key-expiry store: a list of entries
  `(key, value, expiresAt)` plus a boolean `avail` saying whether
  `getRedisClient()` returned a client.  `GET key` at time `t` yields the
  value while `t < expiresAt`; `setEx key ttl v` at time `t` overwrites the
  key with expiry `t + ttl`; `KEYS pattern` matches with Redis glob syntax
  (the repository only ever passes patterns that are a literal followed by a
  single trailing star, and none of its keys contain glob metacharacters).
* The asynchronous middleware is flattened into one function `cacheMiddleware`
  from (availability, setEx-failure flag, current time, ttl, store, request,
  handler payload) to an `Outcome` recording the response sent to the caller
  (`Except Unit JsonValue`, where `.error` is a synchronous exception escaping
  the overridden `res.json`), the resulting store, and instrumentation
  counters: how often the wrapped route handler ran and how many Redis
  get / setEx calls were issued.
-/

/-- JSON-like payloads handed to `res.json`.  `jbig` stands for a value
containing a JavaScript `BigInt`, on which `JSON.stringify` throws. -/
inductive JsonValue where
  | jnull : JsonValue
  | jbool : Bool → JsonValue
  | jnum : Int → JsonValue
  | jstr : String → JsonValue
  | jarr : List JsonValue → JsonValue
  | jobj : List (String × JsonValue) → JsonValue
  | jbig : Int → JsonValue

mutual

/-- Whether `JSON.stringify` succeeds on the payload (it throws a `TypeError`
as soon as a `BigInt` occurs anywhere inside the value). -/
def serializable : JsonValue → Bool
  | .jnull => true
  | .jbool _ => true
  | .jnum _ => true
  | .jstr _ => true
  | .jarr xs => serializableList xs
  | .jobj fs => serializableFields fs
  | .jbig _ => false

/-- `serializable` on every element of an array. -/
def serializableList : List JsonValue → Bool
  | [] => true
  | x :: xs => serializable x && serializableList xs

/-- `serializable` on every field value of an object. -/
def serializableFields : List (String × JsonValue) → Bool
  | [] => true
  | f :: fs => serializable f.2 && serializableFields fs

end

/-- JavaScript property access `data.name`: the field of an object literal,
absent (`undefined`) on a missing field or a non-object value. -/
def getField (d : JsonValue) (name : String) : Option JsonValue :=
  match d with
  | .jobj fs => fs.lookup name
  | _ => none

/-- The strict comparison `data.success === false` used (negated) by the
middleware: only the literal boolean `false` passes, any other value of the
field, and an absent field, do not. -/
def isLiteralFalse : Option JsonValue → Bool
  | some (.jbool false) => true
  | _ => false

/-- An Express request, restricted to the fields the cache layer reads.
`originalUrl` is `req.originalUrl` (the mounted path together with the raw
query string, exactly as it appeared on the wire; the middleware's fallback
`req.url` has the same shape and is elided).  `query` is `req.query`: the
parsed query parameters, in arrival order, with unique names.  `hasUser`
models `req.user` being set by the auth middleware. -/
structure Request where
  method : String
  path : String
  originalUrl : String
  query : List (String × String)
  hasUser : Bool
  deriving DecidableEq, Repr

/-- Lexicographic comparison of character lists by code point, the order
`Array.prototype.sort()` uses on strings (JavaScript compares UTF-16 code
units; on the basic multilingual plane — all keys occurring here — the two
orders coincide). -/
def charListLe : List Char → List Char → Bool
  | [], _ => true
  | _ :: _, [] => false
  | a :: as, b :: bs => if a = b then charListLe as bs else decide (a.toNat < b.toNat)

/-- String comparison used by the default sort. -/
def strLe (a b : String) : Bool :=
  charListLe a.toList b.toList

/-- `Object.keys(req.query).sort()`: JavaScript's default sort produces the
keys in ascending `strLe` order; modelled by insertion sort. -/
def sortStrings (l : List String) : List String :=
  List.insertionSort (fun a b => strLe a b = true) l

/-- `Array.prototype.join('&')`. -/
def joinAmp : List String → String
  | [] => ""
  | [s] => s
  | s :: rest => s ++ "&" ++ joinAmp rest

/-- The sorted `name=value` serialization of the query parameters built inside
`generateCacheKey` (cache.js lines 11-14). -/
def canonicalQueryString (q : List (String × String)) : String :=
  joinAmp ((sortStrings (q.map Prod.fst)).map
    (fun k => k ++ "=" ++ ((q.lookup k).getD "")))

/-- `generateCacheKey` (cache.js lines 8-16): the base key is
`method:originalUrl`; if the sorted query serialization is nonempty (a
nonempty string is truthy) it is appended after a `?`. -/
def generateCacheKey (req : Request) : String :=
  let baseKey := req.method ++ ":" ++ req.originalUrl
  let queryString := canonicalQueryString req.query
  if queryString = "" then baseKey else baseKey ++ "?" ++ queryString

/-- The key format asserted by the specification (spec section 6): method,
then the path without any raw query string, then the canonical sorted query
appended at most once.  Stated from the spec's words, for comparison with
`generateCacheKey`. -/
def specCacheKey (req : Request) : String :=
  let base := req.method ++ ":" ++ req.path
  let qs := canonicalQueryString req.query
  if qs = "" then base else base ++ "?" ++ qs

/-- Substring containment on character lists (JavaScript
`String.prototype.includes`). -/
def containsSeg : List Char → List Char → Bool
  | [], needle => needle.isEmpty
  | c :: t, needle => needle.isPrefixOf (c :: t) || containsSeg t needle

/-- `req.path.includes('/admin')` (cache.js line 27). -/
def pathIncludes (path needle : String) : Bool :=
  containsSeg path.toList needle.toList

/-- Boolean string prefix test, used to state which keys an invalidation
pattern covers. -/
def strStartsWith (p s : String) : Bool :=
  p.toList.isPrefixOf s.toList

/-- One entry of the Redis store: key, stored payload (see the header comment
on serialization), absolute expiry time. -/
structure Entry where
  key : String
  value : JsonValue
  expiresAt : Nat

/-- The Redis store contents. -/
abbrev Store := List Entry

/-- `redisClient.get key` at time `now`: the stored value while it has not
expired, otherwise nothing. -/
def storeGet (store : Store) (now : Nat) (k : String) : Option JsonValue :=
  match store.find? (fun e => e.key == k) with
  | some e => if now < e.expiresAt then some e.value else none
  | none => none

/-- `redisClient.setEx key ttl v` at time `now`: overwrite the key, with
absolute expiry `now + ttl`. -/
def storeSet (store : Store) (now ttl : Nat) (k : String) (v : JsonValue) : Store :=
  ⟨k, v, now + ttl⟩ :: store.filter (fun e => e.key != k)

/-- Default TTL (cache.js line 5). -/
def DEFAULT_TTL : Nat := 3600

/-- Result of running the cache middleware followed by the wrapped route
handler on one request.  `response` is what the caller receives (`.error ()`
models a synchronous exception escaping the overridden `res.json`);
`handlerCalls` counts invocations of the wrapped route handler; `cacheReads`
and `cacheWrites` count the Redis `get` and `setEx` calls issued. -/
structure Outcome where
  response : Except Unit JsonValue
  store : Store
  handlerCalls : Nat
  cacheReads : Nat
  cacheWrites : Nat

/-- `cacheMiddleware(ttl)` (cache.js lines 19-75) composed with the wrapped
route handler, which calls `res.json hData` exactly once.

Control flow translated from the source: non-GET methods bypass (line 22);
paths containing `/admin` or authenticated requests bypass (line 27); a
missing Redis client bypasses (line 34); a cache hit returns the parsed
stored payload without running the handler (lines 44-48); on a miss the
handler runs and the overridden `res.json` (lines 57-66) caches the payload
when `data.success !== false`, via `setEx` with the configured ttl —
a rejected `setEx` promise is swallowed by `.catch` (`setExFails`), while a
synchronous `JSON.stringify` throw escapes the `res.json` call
(`.error ()`). -/
def cacheMiddleware (avail setExFails : Bool) (now ttl : Nat) (store : Store)
    (req : Request) (hData : JsonValue) : Outcome :=
  if req.method != "GET" then ⟨.ok hData, store, 1, 0, 0⟩
  else if pathIncludes req.path "/admin" || req.hasUser then ⟨.ok hData, store, 1, 0, 0⟩
  else if !avail then ⟨.ok hData, store, 1, 0, 0⟩
  else
    match storeGet store now (generateCacheKey req) with
    | some cached => ⟨.ok cached, store, 0, 1, 0⟩
    | none =>
      if isLiteralFalse (getField hData "success") then
        ⟨.ok hData, store, 1, 1, 0⟩
      else if serializable hData then
        ⟨.ok hData,
          if setExFails then store else storeSet store now ttl (generateCacheKey req) hData,
          1, 1, 1⟩
      else ⟨.error (), store, 1, 1, 0⟩

/-- Redis `KEYS` glob matching over character lists.  Of the glob
metacharacters only `*` ever occurs in the repository's patterns, so the
others are matched literally. -/
def globMatchAux : List Char → List Char → Bool
  | [], k => k.isEmpty
  | c :: ps, [] => if c = '*' then globMatchAux ps [] else false
  | c :: ps, x :: ks =>
      if c = '*' then globMatchAux ps (x :: ks) || globMatchAux (c :: ps) ks
      else (c == x) && globMatchAux ps ks
termination_by p k => (k.length, p.length)

/-- Redis `KEYS pattern` matching on strings. -/
def globMatch (pattern key : String) : Bool :=
  globMatchAux pattern.toList key.toList

/-- `invalidateCache pattern` (cache.js lines 78-96): with no client it
returns at once; otherwise it collects the matching keys and, when there is
at least one, deletes them.  Returns the resulting store and the number of
deleted keys (the source logs this count). -/
def invalidateCache (avail : Bool) (store : Store) (pattern : String) : Store × Nat :=
  if !avail then (store, 0)
  else
    let matching := store.filter (fun e => globMatch pattern e.key)
    if 0 < matching.length then
      (store.filter (fun e => !globMatch pattern e.key), matching.length)
    else (store, 0)

/-- `invalidateRouteCache route` (cache.js lines 99-102): purge the pattern
`GET:/api/<route>*`. -/
def invalidateRouteCache (avail : Bool) (store : Store) (route : String) : Store :=
  (invalidateCache avail store ("GET:/api/" ++ route ++ "*")).1

/-- `invalidateResourceCache resource` (cache.js lines 105-115): purge the
resource's own route, then the statically listed secondary views (`blog` also
purges `blog/categories` and `blog/tags`; `skills` also purges
`skills/categories`). -/
def invalidateResourceCache (avail : Bool) (store : Store) (resource : String) : Store :=
  let s1 := invalidateRouteCache avail store resource
  let s2 :=
    if resource == "blog" then
      invalidateRouteCache avail (invalidateRouteCache avail s1 "blog/categories") "blog/tags"
    else s1
  if resource == "skills" then invalidateRouteCache avail s2 "skills/categories" else s2

/-- Persistence and invalidation events emitted by a write route.
`persisted r` is a durable, successful mutation of resource `r` (a resolved
`save()` / `findByIdAndUpdate` / `findByIdAndDelete`); `persistFailed r` is a
rejected persistence call (caught by the route's `catch`); `invalidated r` is
a call to the cache invalidation for `r`. -/
inductive DbEvent where
  | persisted : String → DbEvent
  | persistFailed : String → DbEvent
  | invalidated : String → DbEvent
  deriving DecidableEq, Repr

/-- `POST /api/blog` (blog.js lines 185-235): `post.save()` then
`invalidateResourceCache('blog')`; a rejected save jumps to the `catch`
(validation or server error response) and invalidation is never reached. -/
def blogCreateTrace (saveOk : Bool) : List DbEvent :=
  if saveOk then [.persisted "blog", .invalidated "blog"]
  else [.persistFailed "blog"]

/-- `PUT /api/blog/:id` (blog.js lines 237-286): `findByIdAndUpdate`; on a
rejection the `catch` answers without invalidating; on `null` (no such post)
a 404 is sent without any mutation; otherwise the update persisted and
`invalidateResourceCache('blog')` runs. -/
def blogUpdateTrace (dbOk found : Bool) : List DbEvent :=
  if !dbOk then [.persistFailed "blog"]
  else if found then [.persisted "blog", .invalidated "blog"]
  else []

/-- `DELETE /api/blog/:id` (blog.js lines 288-321): same shape as the
update route. -/
def blogDeleteTrace (dbOk found : Bool) : List DbEvent :=
  if !dbOk then [.persistFailed "blog"]
  else if found then [.persisted "blog", .invalidated "blog"]
  else []

/-- `POST /api/projects` (projects.js lines 111-160). -/
def projectCreateTrace (saveOk : Bool) : List DbEvent :=
  if saveOk then [.persisted "projects", .invalidated "projects"]
  else [.persistFailed "projects"]

/-- `PUT /api/projects/:id` (projects.js lines 163-210). -/
def projectUpdateTrace (dbOk found : Bool) : List DbEvent :=
  if !dbOk then [.persistFailed "projects"]
  else if found then [.persisted "projects", .invalidated "projects"]
  else []

/-- `DELETE /api/projects/:id` (projects.js lines 213-245). -/
def projectDeleteTrace (dbOk found : Bool) : List DbEvent :=
  if !dbOk then [.persistFailed "projects"]
  else if found then [.persisted "projects", .invalidated "projects"]
  else []

/-- `POST /api/skills` (skills router, blog.js bundle lines 440-477). -/
def skillCreateTrace (saveOk : Bool) : List DbEvent :=
  if saveOk then [.persisted "skills", .invalidated "skills"]
  else [.persistFailed "skills"]

/-- `PUT /api/skills/:id` (skills router lines 479-510). -/
def skillUpdateTrace (dbOk found : Bool) : List DbEvent :=
  if !dbOk then [.persistFailed "skills"]
  else if found then [.persisted "skills", .invalidated "skills"]
  else []

/-- `DELETE /api/skills/:id` (skills router lines 513-540). -/
def skillDeleteTrace (dbOk found : Bool) : List DbEvent :=
  if !dbOk then [.persistFailed "skills"]
  else if found then [.persisted "skills", .invalidated "skills"]
  else []

/-- `PUT /api/profile` (profile.js lines 105-145): `profile.save()` then
`invalidateRouteCache('profile')`; a rejected save is caught before
invalidation. -/
def profileUpdateTrace (saveOk : Bool) : List DbEvent :=
  if saveOk then [.persisted "profile", .invalidated "profile"]
  else [.persistFailed "profile"]

/-- `POST /api/profile/upload-image` (profile.js lines 148-189): a missing
profile answers 404 with no mutation; otherwise `profile.save()` then
`invalidateRouteCache('profile')`. -/
def profileUploadImageTrace (found saveOk : Bool) : List DbEvent :=
  if !found then []
  else if saveOk then [.persisted "profile", .invalidated "profile"]
  else [.persistFailed "profile"]

/-- `POST /api/profile/upload-resume` (profile.js lines 192-231): same shape
as the image upload. -/
def profileUploadResumeTrace (found saveOk : Bool) : List DbEvent :=
  if !found then []
  else if saveOk then [.persisted "profile", .invalidated "profile"]
  else [.persistFailed "profile"]

/-- Scan of a route trace checking that every `invalidated r` event is
preceded by a `persisted r` event; `done` accumulates the resources already
durably persisted. -/
def invalidationAfterPersistenceAux (done : List String) : List DbEvent → Bool
  | [] => true
  | .persisted r :: t => invalidationAfterPersistenceAux (r :: done) t
  | .persistFailed _ :: t => invalidationAfterPersistenceAux done t
  | .invalidated r :: t => done.contains r && invalidationAfterPersistenceAux done t

/-- Every invalidation in the trace happens strictly after the corresponding
resource was durably persisted. -/
def invalidationAfterPersistence (t : List DbEvent) : Bool :=
  invalidationAfterPersistenceAux [] t

/-! Concrete sample data used in witnesses and counterexamples. -/

/-- A public GET request with no query parameters. -/
def reqProjects : Request := ⟨"GET", "/api/projects", "/api/projects", [], false⟩

/-- The same logical request with its two query parameters in the order
`b=2&a=1` on the wire (Express fills `req.query` in arrival order and
`req.originalUrl` with the raw URL). -/
def reqQueryBA : Request :=
  ⟨"GET", "/api/projects", "/api/projects?b=2&a=1", [("b", "2"), ("a", "1")], false⟩

/-- The same logical request with the parameters in the order `a=1&b=2`. -/
def reqQueryAB : Request :=
  ⟨"GET", "/api/projects", "/api/projects?a=1&b=2", [("a", "1"), ("b", "2")], false⟩

/-- A non-GET request whose key collides with a cached public GET path. -/
def reqPost : Request := ⟨"POST", "/api/projects", "/api/projects", [], false⟩

/-- A GET request on an administrative sub-path. -/
def reqAdminGet : Request :=
  ⟨"GET", "/api/profile/admin", "/api/profile/admin", [], false⟩

/-- A successful handler payload. -/
def okPayload : JsonValue := .jobj [("success", .jbool true)]

/-- A handler payload explicitly marked unsuccessful. -/
def failPayload : JsonValue :=
  .jobj [("success", .jbool false), ("message", .jstr "Blog post not found")]

/-- A handler payload whose `success` field is `0`: not the literal `false`,
so `data.success !== false` holds. -/
def zeroSuccessPayload : JsonValue := .jobj [("success", .jnum 0)]

/-- A successful handler payload containing a `BigInt`, on which
`JSON.stringify` throws. -/
def bigPayload : JsonValue := .jobj [("success", .jbool true), ("data", .jbig 1)]

/-! Helper lemmas about the order used by the key sort. -/

theorem char_eq_of_toNat_eq {c d : Char} (h : c.toNat = d.toNat) : c = d :=
  Char.ext (UInt32.ext h)

theorem charListLe_total : ∀ x y : List Char, charListLe x y = true ∨ charListLe y x = true
  | [], _ => Or.inl rfl
  | _ :: _, [] => Or.inr rfl
  | a :: as, b :: bs => by
    by_cases hab : a = b
    · subst hab
      rcases charListLe_total as bs with h | h
      · exact Or.inl (by simpa [charListLe] using h)
      · exact Or.inr (by simpa [charListLe] using h)
    · rcases Nat.lt_or_ge a.toNat b.toNat with h | h
      · exact Or.inl (by simp [charListLe, hab, h])
      · have hba : b.toNat < a.toNat := by
          rcases Nat.lt_or_ge b.toNat a.toNat with h2 | h2
          · exact h2
          · exact absurd (char_eq_of_toNat_eq (Nat.le_antisymm h2 h)) hab
        exact Or.inr (by simp [charListLe, Ne.symm hab, hba])

theorem charListLe_trans :
    ∀ {x y z : List Char}, charListLe x y = true → charListLe y z = true →
      charListLe x z = true
  | [], _, _, _, _ => rfl
  | _ :: _, [], _, h, _ => by simp [charListLe] at h
  | _ :: _, _ :: _, [], _, h => by simp [charListLe] at h
  | a :: as, b :: bs, c :: cs, h1, h2 => by
    by_cases hab : a = b <;> by_cases hbc : b = c
    · subst hab; subst hbc
      simp only [charListLe, if_pos rfl] at h1 h2 ⊢
      exact charListLe_trans h1 h2
    · subst hab
      simp only [charListLe, if_pos rfl] at h1
      simpa [charListLe, hbc] using h2
    · subst hbc
      simp only [charListLe, if_pos rfl] at h2
      simpa [charListLe, hab] using h1
    · simp only [charListLe, if_neg hab] at h1
      simp only [charListLe, if_neg hbc] at h2
      have hac : a.toNat < c.toNat := Nat.lt_trans (of_decide_eq_true h1) (of_decide_eq_true h2)
      have hne : a ≠ c := fun h => by
        subst h; exact Nat.lt_irrefl _ hac
      simp [charListLe, hne, hac]

instance : IsTotal String (fun a b => strLe a b = true) :=
  ⟨fun a b => charListLe_total a.toList b.toList⟩

instance : IsTrans String (fun a b => strLe a b = true) :=
  ⟨fun _ _ _ => charListLe_trans⟩

/-! Helper lemmas about Redis glob matching and the store. -/

theorem globMatchAux_star_all (k : List Char) : globMatchAux ['*'] k = true := by
  induction k with
  | nil => simp [globMatchAux]
  | cons c ks ih => simp [globMatchAux, ih]

theorem globMatchAux_lit_star (p : List Char) (hp : '*' ∉ p) :
    ∀ k : List Char, globMatchAux (p ++ ['*']) k = p.isPrefixOf k := by
  induction p with
  | nil => intro k; simp [globMatchAux_star_all, List.isPrefixOf]
  | cons c ps ih =>
    have hc : c ≠ '*' := fun h => hp (h ▸ List.mem_cons_self c ps)
    have hps : '*' ∉ ps := fun h => hp (List.mem_cons_of_mem _ h)
    intro k
    cases k with
    | nil => simp [globMatchAux, hc, List.isPrefixOf]
    | cons x ks => simp [globMatchAux, hc, List.isPrefixOf, ih hps]

theorem globMatch_trailing_star (p key : String) (hp : '*' ∉ p.toList) :
    globMatch (p ++ "*") key = strStartsWith p key := by
  have h : (p ++ "*").toList = p.toList ++ ['*'] := String.data_append p "*"
  rw [globMatch, strStartsWith, h, globMatchAux_lit_star p.toList hp]

theorem strStartsWith_trans {p q s : String} (h1 : strStartsWith p q = true)
    (h2 : strStartsWith q s = true) : strStartsWith p s = true := by
  rw [strStartsWith, List.isPrefixOf_iff_prefix] at h1 h2 ⊢
  exact h1.trans h2

theorem storeGet_storeSet_same (s : Store) (now ttl t : Nat) (k : String) (v : JsonValue) :
    storeGet (storeSet s now ttl k v) t k = if t < now + ttl then some v else none := by
  simp [storeGet, storeSet, List.find?_cons]

theorem storeGet_eq_none (s : Store) (now : Nat) (k : String)
    (h : ∀ e ∈ s, (e.key == k) = false) : storeGet s now k = none := by
  have hf : s.find? (fun e => e.key == k) = none :=
    List.find?_eq_none.mpr (fun x hx => by simp [h x hx])
  simp [storeGet, hf]

theorem invalidateCache_true_fst (s : Store) (pattern : String) :
    (invalidateCache true s pattern).1 = s.filter (fun e => !globMatch pattern e.key) := by
  by_cases h : 0 < (s.filter (fun e => globMatch pattern e.key)).length
  · simp [invalidateCache, h]
  · have hnil : s.filter (fun e => globMatch pattern e.key) = [] :=
      List.length_eq_zero.mp (Nat.eq_zero_of_not_pos h)
    have h0 : ∀ e ∈ s, globMatch pattern e.key = false := by
      intro e he
      by_contra hme
      have hmem : e ∈ s.filter (fun e => globMatch pattern e.key) :=
        List.mem_filter.mpr ⟨he, by simpa using hme⟩
      rw [hnil] at hmem
      exact absurd hmem (List.not_mem_nil e)
    have hself : s.filter (fun e => !globMatch pattern e.key) = s :=
      List.filter_eq_self.mpr (fun a ha => by simp [h0 a ha])
    simp [invalidateCache, h, hself]

theorem mem_invalidateRouteCache (s : Store) (route : String) (e : Entry)
    (he : e ∈ invalidateRouteCache true s route) :
    e ∈ s ∧ globMatch ("GET:/api/" ++ route ++ "*") e.key = false := by
  rw [invalidateRouteCache, invalidateCache_true_fst] at he
  have h := List.mem_filter.mp he
  exact ⟨h.1, by simpa using h.2⟩

theorem mem_invalidateRouteCache_lit (s : Store) (route : String) (e : Entry)
    (hstar : '*' ∉ ("GET:/api/" ++ route).toList)
    (he : e ∈ invalidateRouteCache true s route) :
    e ∈ s ∧ strStartsWith ("GET:/api/" ++ route) e.key = false := by
  obtain ⟨h1, h2⟩ := mem_invalidateRouteCache s route e he
  refine ⟨h1, ?_⟩
  rw [← globMatch_trailing_star _ _ hstar]
  exact h2

theorem invalidateRouteCache_noop (s : Store) (route : String)
    (h : ∀ e ∈ s, globMatch ("GET:/api/" ++ route ++ "*") e.key = false) :
    invalidateRouteCache true s route = s := by
  rw [invalidateRouteCache, invalidateCache_true_fst]
  exact List.filter_eq_self.mpr (fun a ha => by simp [h a ha])

/-! Claim theorems. -/

/-- C3: after `invalidateResourceCache("blog")` no entry whose key has prefix
`GET:/api/blog` remains retrievable — in particular none with the
`GET:/api/blog/categories` or `GET:/api/blog/tags` prefixes; likewise
`invalidateResourceCache("skills")` also purges every key with prefix
`GET:/api/skills/categories`; and when no key matches the resource's
patterns the operation is a no-op on the store. -/
theorem invalidation_completeness (store : Store) (now : Nat) :
    (∀ k, strStartsWith "GET:/api/blog" k = true →
        storeGet (invalidateResourceCache true store "blog") now k = none) ∧
    (∀ k, strStartsWith "GET:/api/blog/categories" k = true →
        storeGet (invalidateResourceCache true store "blog") now k = none) ∧
    (∀ k, strStartsWith "GET:/api/blog/tags" k = true →
        storeGet (invalidateResourceCache true store "blog") now k = none) ∧
    (∀ k, strStartsWith "GET:/api/skills/categories" k = true →
        storeGet (invalidateResourceCache true store "skills") now k = none) ∧
    ((∀ e ∈ store, strStartsWith "GET:/api/blog" e.key = false) →
        invalidateResourceCache true store "blog" = store) := by
  have hb1 : (("blog" : String) == "blog") = true := by decide
  have hb2 : (("blog" : String) == "skills") = false := by decide
  have hs1 : (("skills" : String) == "blog") = false := by decide
  have hs2 : (("skills" : String) == "skills") = true := by decide
  have hblog : invalidateResourceCache true store "blog" =
      invalidateRouteCache true
        (invalidateRouteCache true (invalidateRouteCache true store "blog") "blog/categories")
        "blog/tags" := by
    simp [invalidateResourceCache, hb1, hb2]
  have hskills : invalidateResourceCache true store "skills" =
      invalidateRouteCache true (invalidateRouteCache true store "skills") "skills/categories" := by
    simp [invalidateResourceCache, hs1, hs2]
  have hlitblog : ("GET:/api/" ++ "blog" : String) = "GET:/api/blog" := by decide
  have main : ∀ k, strStartsWith "GET:/api/blog" k = true →
      storeGet (invalidateResourceCache true store "blog") now k = none := by
    intro k hk
    rw [hblog]
    apply storeGet_eq_none
    intro e he
    obtain ⟨he2, -⟩ := mem_invalidateRouteCache_lit _ "blog/tags" e (by decide) he
    obtain ⟨he1, -⟩ := mem_invalidateRouteCache_lit _ "blog/categories" e (by decide) he2
    obtain ⟨-, hpre⟩ := mem_invalidateRouteCache_lit _ "blog" e (by decide) he1
    rw [hlitblog] at hpre
    cases hek : e.key == k with
    | false => rfl
    | true =>
      rw [eq_of_beq hek] at hpre
      rw [hk] at hpre
      exact absurd hpre (by simp)
  refine ⟨main, ?_, ?_, ?_, ?_⟩
  · intro k hk
    exact main k (strStartsWith_trans (by decide) hk)
  · intro k hk
    exact main k (strStartsWith_trans (by decide) hk)
  · intro k hk
    rw [hskills]
    apply storeGet_eq_none
    intro e he
    obtain ⟨-, hpre⟩ := mem_invalidateRouteCache_lit _ "skills/categories" e (by decide) he
    have hlit : ("GET:/api/" ++ "skills/categories" : String) = "GET:/api/skills/categories" := by
      decide
    rw [hlit] at hpre
    cases hek : e.key == k with
    | false => rfl
    | true =>
      rw [eq_of_beq hek] at hpre
      rw [hk] at hpre
      exact absurd hpre (by simp)
  · intro h
    have step : ∀ (s : Store) (route : String),
        '*' ∉ ("GET:/api/" ++ route).toList →
        (∀ e ∈ s, strStartsWith ("GET:/api/" ++ route) e.key = false) →
        invalidateRouteCache true s route = s := by
      intro s route hstar hr
      apply invalidateRouteCache_noop
      intro e he
      rw [globMatch_trailing_star _ _ hstar]
      exact hr e he
    have hcat : ∀ e ∈ store, strStartsWith ("GET:/api/" ++ "blog/categories") e.key = false := by
      intro e he
      cases hx : strStartsWith ("GET:/api/" ++ "blog/categories") e.key with
      | false => rfl
      | true =>
        have hp : strStartsWith "GET:/api/blog" e.key = true :=
          strStartsWith_trans (by decide) hx
        rw [h e he] at hp
        exact absurd hp (by simp)
    have htags : ∀ e ∈ store, strStartsWith ("GET:/api/" ++ "blog/tags") e.key = false := by
      intro e he
      cases hx : strStartsWith ("GET:/api/" ++ "blog/tags") e.key with
      | false => rfl
      | true =>
        have hp : strStartsWith "GET:/api/blog" e.key = true :=
          strStartsWith_trans (by decide) hx
        rw [h e he] at hp
        exact absurd hp (by simp)
    have h1 : invalidateRouteCache true store "blog" = store :=
      step store "blog" (by decide) (fun e he => by rw [hlitblog]; exact h e he)
    rw [hblog, h1, step store "blog/categories" (by decide) hcat,
      step store "blog/tags" (by decide) htags]

/-- C1: on a public GET with the store available and nothing yet cached under
the request's key, the middleware invokes the wrapped handler exactly once
and stores the serialized successful payload under that key with expiry
`now + ttl`; an identical read at any time before that expiry answers with
the stored payload and does not invoke the handler at all. -/
theorem cache_aside_correctness (store : Store) (now now2 ttl : Nat)
    (req : Request) (hData : JsonValue)
    (hm : req.method = "GET")
    (ha : pathIncludes req.path "/admin" = false)
    (hu : req.hasUser = false)
    (hmiss : storeGet store now (generateCacheKey req) = none)
    (hsucc : isLiteralFalse (getField hData "success") = false)
    (hser : serializable hData = true)
    (httl : now2 < now + ttl) :
    cacheMiddleware true false now ttl store req hData =
      ⟨.ok hData, storeSet store now ttl (generateCacheKey req) hData, 1, 1, 1⟩ ∧
    cacheMiddleware true false now2 ttl
        (storeSet store now ttl (generateCacheKey req) hData) req hData =
      ⟨.ok hData, storeSet store now ttl (generateCacheKey req) hData, 0, 1, 0⟩ := by
  constructor
  · simp [cacheMiddleware, hm, ha, hu, hmiss, hsucc, hser]
  · have hhit := storeGet_storeSet_same store now ttl now2 (generateCacheKey req) hData
    rw [if_pos httl] at hhit
    simp [cacheMiddleware, hm, ha, hu, hhit]

/-- C1 witness: first and second read of `GET /api/projects` at times 0 and 5
with ttl 3600. -/
theorem cache_aside_correctness_witness :
    cacheMiddleware true false 0 3600 [] reqProjects okPayload =
      ⟨.ok okPayload, storeSet [] 0 3600 (generateCacheKey reqProjects) okPayload, 1, 1, 1⟩ ∧
    cacheMiddleware true false 5 3600
        (storeSet [] 0 3600 (generateCacheKey reqProjects) okPayload) reqProjects okPayload =
      ⟨.ok okPayload, storeSet [] 0 3600 (generateCacheKey reqProjects) okPayload, 0, 1, 0⟩ :=
  cache_aside_correctness [] 0 5 3600 reqProjects okPayload rfl (by decide) rfl rfl rfl
    (by simp [okPayload, serializable, serializableFields]) (by decide)

/-- C4: a request that is not a GET, or carries an authenticated user, or
whose path contains `/admin`, issues no Redis get and no Redis setEx, leaves
the store untouched, and invokes the handler directly — whatever the store
contains, including an entry under the request's own key. -/
theorem bypass_no_cache_io (avail setExFails : Bool) (now ttl : Nat) (store : Store)
    (req : Request) (hData : JsonValue)
    (h : req.method ≠ "GET" ∨ req.hasUser = true ∨ pathIncludes req.path "/admin" = true) :
    cacheMiddleware avail setExFails now ttl store req hData =
      ⟨.ok hData, store, 1, 0, 0⟩ := by
  rcases h with h | h | h
  · have hb : (req.method != "GET") = true := bne_iff_ne.mpr h
    simp [cacheMiddleware, hb]
  · cases hb : req.method != "GET" with
    | true => simp [cacheMiddleware, hb]
    | false => simp [cacheMiddleware, hb, h]
  · cases hb : req.method != "GET" with
    | true => simp [cacheMiddleware, hb]
    | false => simp [cacheMiddleware, hb, h]

/-- C4 witness: a POST whose key would collide with a cached public GET path,
against a store that holds entries under both the GET and the POST key. -/
theorem bypass_no_cache_io_witness :
    cacheMiddleware true false 0 3600
        [⟨"GET:/api/projects", okPayload, 100⟩, ⟨"POST:/api/projects", okPayload, 100⟩]
        reqPost okPayload =
      ⟨.ok okPayload,
        [⟨"GET:/api/projects", okPayload, 100⟩, ⟨"POST:/api/projects", okPayload, 100⟩],
        1, 0, 0⟩ :=
  bypass_no_cache_io true false 0 3600 _ reqPost okPayload (Or.inl (by decide))

/-- C5: with the store unavailable (no Redis client), the middleware issues
no cache read and no cache write and returns exactly the wrapped handler's
result (never an error), `invalidateCache` deletes zero keys and leaves the
store as it is, and `invalidateResourceCache` is the identity on the store. -/
theorem store_unavailable_noop (setExFails : Bool) (now ttl : Nat) (store : Store)
    (req : Request) (hData : JsonValue) (pattern resource : String) :
    cacheMiddleware false setExFails now ttl store req hData =
      ⟨.ok hData, store, 1, 0, 0⟩ ∧
    invalidateCache false store pattern = (store, 0) ∧
    invalidateResourceCache false store resource = store := by
  refine ⟨?_, rfl, ?_⟩
  · unfold cacheMiddleware
    split
    · rfl
    · split
      · rfl
      · rfl
  · simp [invalidateResourceCache, invalidateRouteCache, invalidateCache]

/-- C6: on a cache miss of a public GET, a payload explicitly marked
`success: false` is not stored and is returned unchanged; a payload not so
marked (and serializable) is stored under the request's key with the
configured ttl, fire-and-forget: the caller receives the handler's payload
whether or not the setEx promise fails, and on a setEx failure the store is
simply left unchanged. -/
theorem miss_path_caching (setExFails : Bool) (now ttl : Nat) (store : Store)
    (req : Request) (hData : JsonValue)
    (hm : req.method = "GET")
    (ha : pathIncludes req.path "/admin" = false)
    (hu : req.hasUser = false)
    (hmiss : storeGet store now (generateCacheKey req) = none) :
    (isLiteralFalse (getField hData "success") = true →
        cacheMiddleware true setExFails now ttl store req hData =
          ⟨.ok hData, store, 1, 1, 0⟩) ∧
    (isLiteralFalse (getField hData "success") = false → serializable hData = true →
        cacheMiddleware true setExFails now ttl store req hData =
          ⟨.ok hData,
            if setExFails then store
            else storeSet store now ttl (generateCacheKey req) hData,
            1, 1, 1⟩) := by
  constructor
  · intro hfail
    simp [cacheMiddleware, hm, ha, hu, hmiss, hfail]
  · intro hsucc hser
    simp [cacheMiddleware, hm, ha, hu, hmiss, hsucc, hser]

/-- C6 witness: a not-found payload of a public read is returned as-is and
not cached; a successful payload is still returned when the setEx promise
fails, and nothing is stored then. -/
theorem miss_path_caching_witness :
    cacheMiddleware true false 0 3600 [] reqProjects failPayload =
      ⟨.ok failPayload, [], 1, 1, 0⟩ ∧
    cacheMiddleware true true 0 3600 [] reqProjects okPayload =
      ⟨.ok okPayload, [], 1, 1, 1⟩ := by
  constructor
  · exact (miss_path_caching false 0 3600 [] reqProjects failPayload rfl (by decide)
      rfl rfl).1 rfl
  · have h := (miss_path_caching true 0 3600 [] reqProjects okPayload rfl (by decide)
      rfl rfl).2 rfl (by simp [okPayload, serializable, serializableFields])
    simpa using h

/-- C10: cacheability is only the strict test `data.success !== false`: on a
public miss a serializable payload whose `success` field is absent, or
present with any value other than the literal boolean `false`, is stored for
the full configured ttl; only `success === false` is excluded from
caching. -/
theorem cacheability_only_explicit_false (now ttl : Nat) (store : Store)
    (req : Request) (hData : JsonValue)
    (hm : req.method = "GET")
    (ha : pathIncludes req.path "/admin" = false)
    (hu : req.hasUser = false)
    (hmiss : storeGet store now (generateCacheKey req) = none)
    (hser : serializable hData = true) :
    (getField hData "success" = none →
        (cacheMiddleware true false now ttl store req hData).store =
          storeSet store now ttl (generateCacheKey req) hData) ∧
    (∀ v, getField hData "success" = some v → v ≠ .jbool false →
        (cacheMiddleware true false now ttl store req hData).store =
          storeSet store now ttl (generateCacheKey req) hData) ∧
    (getField hData "success" = some (.jbool false) →
        (cacheMiddleware true false now ttl store req hData).store = store) := by
  have store_branch : isLiteralFalse (getField hData "success") = false →
      (cacheMiddleware true false now ttl store req hData).store =
        storeSet store now ttl (generateCacheKey req) hData := by
    intro hsucc
    simp [cacheMiddleware, hm, ha, hu, hmiss, hsucc, hser]
  refine ⟨?_, ?_, ?_⟩
  · intro h0
    exact store_branch (by rw [h0]; rfl)
  · intro v hv hvne
    apply store_branch
    rw [hv]
    cases v with
    | jbool b =>
      cases b with
      | false => exact absurd rfl hvne
      | true => rfl
    | jnull => rfl
    | jnum n => rfl
    | jstr s => rfl
    | jarr xs => rfl
    | jobj fs => rfl
    | jbig n => rfl
  · intro hfalse
    have hl : isLiteralFalse (getField hData "success") = true := by rw [hfalse]; rfl
    simp [cacheMiddleware, hm, ha, hu, hmiss, hl]

/-- C10 witness: `success: 0` is cached (the test is a strict inequality
against the literal `false`), while `success: false` is not. -/
theorem cacheability_only_explicit_false_witness :
    (cacheMiddleware true false 0 3600 [] reqProjects zeroSuccessPayload).store =
      storeSet [] 0 3600 (generateCacheKey reqProjects) zeroSuccessPayload ∧
    (cacheMiddleware true false 0 3600 [] reqProjects failPayload).store = [] := by
  constructor
  · exact (cacheability_only_explicit_false 0 3600 [] reqProjects zeroSuccessPayload rfl
      (by decide) rfl rfl
      (by simp [zeroSuccessPayload, serializable, serializableFields])).2.1
      (.jnum 0) rfl (by intro h; cases h)
  · exact (cacheability_only_explicit_false 0 3600 [] reqProjects failPayload rfl
      (by decide) rfl rfl
      (by simp [failPayload, serializable, serializableFields])).2.2 rfl

/-- C7 (violated by the code): on a public miss with a successful but
non-serializable payload, `JSON.stringify` inside the overridden `res.json`
throws before `setEx` is called — nothing is cached, but instead of skipping
the store step and returning the handler's payload, the exception escapes
the `res.json` call, so the caller does not receive the handler's original
result. -/
theorem serialization_failure_escapes :
    cacheMiddleware true false 0 3600 [] reqProjects bigPayload =
      ⟨.error (), [], 1, 1, 0⟩ := by
  have hm : reqProjects.method = "GET" := rfl
  have ha : pathIncludes reqProjects.path "/admin" = false := by decide
  have hu : reqProjects.hasUser = false := rfl
  have hmiss : storeGet [] 0 (generateCacheKey reqProjects) = none := rfl
  have hsucc : isLiteralFalse (getField bigPayload "success") = false := rfl
  have hser : serializable bigPayload = false := by
    simp [bigPayload, serializable, serializableFields]
  simp [cacheMiddleware, hm, ha, hu, hmiss, hsucc, hser]

/-- C2 (violated by the code): `generateCacheKey` is order-sensitive.  The
base key is built from `req.originalUrl`, which still contains the raw query
string in arrival order, so the two orderings of the same parameter set give
different keys, each containing the query twice (raw order, then sorted). -/
theorem generateCacheKey_order_sensitive :
    generateCacheKey reqQueryBA = "GET:/api/projects?b=2&a=1?a=1&b=2" ∧
    generateCacheKey reqQueryAB = "GET:/api/projects?a=1&b=2?a=1&b=2" ∧
    generateCacheKey reqQueryBA ≠ generateCacheKey reqQueryAB := by
  refine ⟨by decide, by decide, by decide⟩

/-- C8 counterexample: for a request with query parameters the produced key
is not of the claimed `METHOD:path[?sorted-query]` shape — the sorted query
suffix is appended to an `originalUrl` that already carries the raw query
string, so the key contains two `?` separators and differs from the
spec-format key. -/
theorem cache_key_claimed_form_fails :
    (generateCacheKey reqQueryBA).toList.count '?' = 2 ∧
    specCacheKey reqQueryBA = "GET:/api/projects?a=1&b=2" ∧
    generateCacheKey reqQueryBA ≠ specCacheKey reqQueryBA := by
  refine ⟨by decide, by decide, by decide⟩

theorem strNe_empty_of_length_pos {s : String} (h : 0 < s.length) : s ≠ "" := by
  intro hs
  rw [hs, String.length_empty] at h
  omega

theorem joinAmp_cons_ne_empty (s : String) (l : List String) (hs : 0 < s.length) :
    joinAmp (s :: l) ≠ "" := by
  cases l with
  | nil => exact strNe_empty_of_length_pos hs
  | cons t ts =>
    apply strNe_empty_of_length_pos
    have hj : joinAmp (s :: t :: ts) = s ++ "&" ++ joinAmp (t :: ts) := rfl
    rw [hj, String.length_append, String.length_append]
    omega

theorem canonicalQueryString_ne_empty (q : List (String × String)) (h : q ≠ []) :
    canonicalQueryString q ≠ "" := by
  obtain ⟨p, rest, rfl⟩ : ∃ p rest, q = p :: rest := by
    cases q with
    | nil => exact absurd rfl h
    | cons p rest => exact ⟨p, rest, rfl⟩
  have hlen : (sortStrings ((p :: rest).map Prod.fst)).length =
      ((p :: rest).map Prod.fst).length := List.length_insertionSort _ _
  cases hs : sortStrings ((p :: rest).map Prod.fst) with
  | nil => rw [hs] at hlen; simp at hlen
  | cons m ms =>
    rw [canonicalQueryString, hs, List.map_cons]
    apply joinAmp_cons_ne_empty
    rw [String.length_append, String.length_append]
    have he : ("=" : String).length = 1 := rfl
    omega

theorem strStartsWith_refl (a : String) : strStartsWith a a = true := by
  rw [strStartsWith, List.isPrefixOf_iff_prefix]

theorem strStartsWith_append2 (a b c : String) : strStartsWith a (a ++ b ++ c) = true := by
  rw [strStartsWith, List.isPrefixOf_iff_prefix]
  show a.data <+: ((a ++ b) ++ c).data
  rw [String.data_append, String.data_append, List.append_assoc]
  exact List.prefix_append _ _

/-- C8 amended: every produced key extends `method:originalUrl`.  A request
without query parameters yields exactly `method:originalUrl` (the claimed
`METHOD:path` form, `originalUrl` having no query part then); a request with
parameters yields `method:originalUrl?sorted-query` — the canonical
name-sorted `name=value` serialization appended once more after the raw
query already inside `originalUrl` — and the sorted name list is indeed
sorted ascending. -/
theorem cache_key_shape (req : Request) :
    strStartsWith (req.method ++ ":" ++ req.originalUrl) (generateCacheKey req) = true ∧
    List.Pairwise (fun a b => strLe a b = true) (sortStrings (req.query.map Prod.fst)) ∧
    (req.query = [] → generateCacheKey req = req.method ++ ":" ++ req.originalUrl) ∧
    (req.query ≠ [] → generateCacheKey req =
        req.method ++ ":" ++ req.originalUrl ++ "?" ++ canonicalQueryString req.query) := by
  refine ⟨?_, ?_, ?_, ?_⟩
  · by_cases hq : canonicalQueryString req.query = ""
    · simp [generateCacheKey, hq, strStartsWith_refl]
    · simp [generateCacheKey, hq, strStartsWith_append2]
  · exact List.sorted_insertionSort _ _
  · intro hq
    have h0 : canonicalQueryString req.query = "" := by rw [hq]; rfl
    simp [generateCacheKey, h0]
  · intro hq
    simp [generateCacheKey, canonicalQueryString_ne_empty req.query hq]

/-- C8 amended witness at the concrete request with reordered parameters. -/
theorem cache_key_shape_witness :
    generateCacheKey reqQueryBA =
      reqQueryBA.method ++ ":" ++ reqQueryBA.originalUrl ++ "?" ++
        canonicalQueryString reqQueryBA.query :=
  (cache_key_shape reqQueryBA).2.2.2 (by decide)

/-- C9: in every write route (create, update, delete for blog, projects,
skills, and the profile update and upload routes), the invalidation call
runs only after the mutation durably persisted: every trace passes the
after-persistence scan, and the invalidation event occurs exactly when
persistence succeeded — it is never reached when the persistence call is
rejected, nor when the target document does not exist. -/
theorem invalidation_follows_persistence :
    (∀ ok : Bool, invalidationAfterPersistence (blogCreateTrace ok) = true ∧
        (DbEvent.invalidated "blog" ∈ blogCreateTrace ok ↔ ok = true)) ∧
    (∀ dbOk found : Bool, invalidationAfterPersistence (blogUpdateTrace dbOk found) = true ∧
        (DbEvent.invalidated "blog" ∈ blogUpdateTrace dbOk found ↔
          dbOk = true ∧ found = true)) ∧
    (∀ dbOk found : Bool, invalidationAfterPersistence (blogDeleteTrace dbOk found) = true ∧
        (DbEvent.invalidated "blog" ∈ blogDeleteTrace dbOk found ↔
          dbOk = true ∧ found = true)) ∧
    (∀ ok : Bool, invalidationAfterPersistence (projectCreateTrace ok) = true ∧
        (DbEvent.invalidated "projects" ∈ projectCreateTrace ok ↔ ok = true)) ∧
    (∀ dbOk found : Bool, invalidationAfterPersistence (projectUpdateTrace dbOk found) = true ∧
        (DbEvent.invalidated "projects" ∈ projectUpdateTrace dbOk found ↔
          dbOk = true ∧ found = true)) ∧
    (∀ dbOk found : Bool, invalidationAfterPersistence (projectDeleteTrace dbOk found) = true ∧
        (DbEvent.invalidated "projects" ∈ projectDeleteTrace dbOk found ↔
          dbOk = true ∧ found = true)) ∧
    (∀ ok : Bool, invalidationAfterPersistence (skillCreateTrace ok) = true ∧
        (DbEvent.invalidated "skills" ∈ skillCreateTrace ok ↔ ok = true)) ∧
    (∀ dbOk found : Bool, invalidationAfterPersistence (skillUpdateTrace dbOk found) = true ∧
        (DbEvent.invalidated "skills" ∈ skillUpdateTrace dbOk found ↔
          dbOk = true ∧ found = true)) ∧
    (∀ dbOk found : Bool, invalidationAfterPersistence (skillDeleteTrace dbOk found) = true ∧
        (DbEvent.invalidated "skills" ∈ skillDeleteTrace dbOk found ↔
          dbOk = true ∧ found = true)) ∧
    (∀ ok : Bool, invalidationAfterPersistence (profileUpdateTrace ok) = true ∧
        (DbEvent.invalidated "profile" ∈ profileUpdateTrace ok ↔ ok = true)) ∧
    (∀ found saveOk : Bool,
        invalidationAfterPersistence (profileUploadImageTrace found saveOk) = true ∧
        (DbEvent.invalidated "profile" ∈ profileUploadImageTrace found saveOk ↔
          found = true ∧ saveOk = true)) ∧
    (∀ found saveOk : Bool,
        invalidationAfterPersistence (profileUploadResumeTrace found saveOk) = true ∧
        (DbEvent.invalidated "profile" ∈ profileUploadResumeTrace found saveOk ↔
          found = true ∧ saveOk = true)) :=
  ⟨fun a => by cases a <;> decide,
   fun a b => by cases a <;> cases b <;> decide,
   fun a b => by cases a <;> cases b <;> decide,
   fun a => by cases a <;> decide,
   fun a b => by cases a <;> cases b <;> decide,
   fun a b => by cases a <;> cases b <;> decide,
   fun a => by cases a <;> decide,
   fun a b => by cases a <;> cases b <;> decide,
   fun a b => by cases a <;> cases b <;> decide,
   fun a => by cases a <;> decide,
   fun a b => by cases a <;> cases b <;> decide,
   fun a b => by cases a <;> cases b <;> decide⟩

/-- C3 witness: a cached blog-tags read is no longer retrievable after
invalidating `blog`, and a store holding only a projects key is left
untouched by invalidating `blog`. -/
theorem invalidation_completeness_witness :
    storeGet (invalidateResourceCache true
        [⟨"GET:/api/blog/tags?page=1", okPayload, 100⟩] "blog") 5
        "GET:/api/blog/tags?page=1" = none ∧
    invalidateResourceCache true [⟨"GET:/api/projects", okPayload, 100⟩] "blog" =
      [⟨"GET:/api/projects", okPayload, 100⟩] := by
  constructor
  · exact (invalidation_completeness [⟨"GET:/api/blog/tags?page=1", okPayload, 100⟩] 5).2.2.1
      "GET:/api/blog/tags?page=1" (by decide)
  · exact (invalidation_completeness [⟨"GET:/api/projects", okPayload, 100⟩] 5).2.2.2.2
      (by decide)
